/-
  Verification of apt2ostree (src/apt2ostree/apt.py) against its
  natural-language specification.

  Shallow embedding: the Python functions of apt.py and the shell bodies of
  its ninja rules are translated into executable Lean definitions; strings
  are Lean `String`s, file streams are lists of lines (each line carrying its
  trailing newline, exactly as Python file iteration yields them), byte
  payloads are `List Nat`, and fallible code returns `Except`/`Option`.
-/
import Mathlib

namespace Apt2Ostree

instance {ε α : Type} [DecidableEq ε] [DecidableEq α] : DecidableEq (Except ε α) := fun
  | .ok a, .ok b =>
    if h : a = b then .isTrue (by rw [h]) else .isFalse (by simp [h])
  | .ok _, .error _ => .isFalse (by simp)
  | .error _, .ok _ => .isFalse (by simp)
  | .error e, .error f =>
    if h : e = f then .isTrue (by rw [h]) else .isFalse (by simp [h])

/-! ### Python string primitives

Helpers mirroring the Python string operations used by apt.py:
`str.strip`, `str.split(sep, 1)`, `str.replace`, `str.startswith`,
`os.path.basename`, and slicing. -/

/-- Python's `str.strip()` whitespace set: space, tab, newline, carriage
return, vertical tab, form feed. -/
def pyIsSpace (c : Char) : Bool :=
  c = ' ' || c = '\t' || c = '\n' || c = '\r' || c = '\x0b' || c = '\x0c'

/-- Python `s.strip()`: remove leading and trailing whitespace. -/
def pyStrip (s : String) : String :=
  ⟨((s.data.dropWhile pyIsSpace).reverse.dropWhile pyIsSpace).reverse⟩

/-- Helper for Python `s.split(sep, 1)`: first occurrence of `sep` splits the
character list; `none` when `sep` does not occur. -/
def pySplitSepAux (sep : List Char) : List Char → Option (List Char × List Char)
  | [] => none
  | c :: cs =>
    if sep.isPrefixOf (c :: cs) then some ([], (c :: cs).drop sep.length)
    else
      match pySplitSepAux sep cs with
      | some (a, b) => some (c :: a, b)
      | none => none

/-- Python `s.split(sep, 1)` restricted to the two-part success case:
`some (before, after)` when `sep` occurs in `s`, else `none` (in which case
Python's two-variable unpacking `label, data = ...` raises `ValueError`). -/
def pySplitSep (sep s : String) : Option (String × String) :=
  match pySplitSepAux sep.data s.data with
  | some (a, b) => some (⟨a⟩, ⟨b⟩)
  | none => none

/-- Python `s.replace(old, new)` on character lists, with explicit fuel to
keep the recursion structural: replace each non-overlapping occurrence of
`old`, scanning left to right.  With `fuel = cs.length` the fuel never runs
out before the list does, since every step consumes at least one character.
(Python's empty-pattern corner case is not used by apt.py; an empty `old`
leaves the string unchanged here.) -/
def pyReplaceGo (old new : List Char) : List Char → Nat → List Char
  | l, 0 => l
  | [], _ => []
  | c :: cs, n + 1 =>
    if old ≠ [] ∧ old.isPrefixOf (c :: cs) then
      new ++ pyReplaceGo old new ((c :: cs).drop old.length) n
    else
      c :: pyReplaceGo old new cs n

/-- Python `s.replace(old, new)`. -/
def pyReplace (s old new : String) : String :=
  ⟨pyReplaceGo old.data new.data s.data s.data.length⟩

/-- Python `os.path.basename`: the part of the path after the last `/`. -/
def pyBasename (s : String) : String :=
  ⟨(s.data.reverse.takeWhile (fun c => c ≠ '/')).reverse⟩

/-- Python `s.startswith(pre)`. -/
def pyStartsWith (s pre : String) : Bool :=
  pre.data.isPrefixOf s.data

/-- Python `s[1:]` (character slicing). -/
def pyTail (s : String) : String :=
  ⟨s.data.drop 1⟩

/-- Hex digits, both cases — the keys of Python 2 urllib's `_hextochr`
table are exactly the two-character strings over this alphabet. -/
def isHexDigit (c : Char) : Bool :=
  ('0' ≤ c && c ≤ '9') || ('a' ≤ c && c ≤ 'f') || ('A' ≤ c && c ≤ 'F')

/-- Numeric value of a hex digit. -/
def hexVal (c : Char) : Nat :=
  if c ≤ '9' then c.toNat - '0'.toNat
  else if c ≤ 'F' then c.toNat - 'A'.toNat + 10
  else c.toNat - 'a'.toNat + 10

/-- Python 2 `urllib.unquote` on the character list: a `%` followed by two
hex digits becomes the byte they denote; a `%` not followed by two hex
digits is kept literally (urllib looks the two characters after each `%` up
in `_hextochr` and falls back to `'%' + item` on a miss). -/
def pyUnquoteGo : List Char → List Char
  | [] => []
  | '%' :: a :: b :: rest =>
    if isHexDigit a ∧ isHexDigit b then
      Char.ofNat (16 * hexVal a + hexVal b) :: pyUnquoteGo rest
    else
      '%' :: pyUnquoteGo (a :: b :: rest)
  | c :: rest => c :: pyUnquoteGo rest

/-- Python 2 `urllib.unquote`. -/
def pyUnquote (s : String) : String :=
  ⟨pyUnquoteGo s.data⟩

/-- Python 2 string comparison: lexicographic over the character sequence.
Embedded as `≤` on the underlying character lists. -/
def pyStrLe (a b : String) : Prop :=
  a.data ≤ b.data

instance : DecidableRel pyStrLe := fun a b =>
  inferInstanceAs (Decidable (a.data ≤ b.data))

instance : IsTotal String pyStrLe :=
  ⟨fun a b => IsTotal.total (r := (· ≤ · : List Char → List Char → Prop)) a.data b.data⟩

instance : IsTrans String pyStrLe :=
  ⟨fun _ _ _ h1 h2 => le_trans h1 h2⟩

instance : IsAntisymm String pyStrLe :=
  ⟨fun a b h1 h2 => by
    cases a; cases b
    exact congrArg String.mk (le_antisymm h1 h2)⟩

/-! ### `parse_packages` (apt.py lines 365-383)

The generator is embedded as a function from the list of stream lines to
`Except`: a `KeyError` (continuation line with no current label) or
`ValueError` (header line without `": "`) raised by the Python code becomes
an `error` result.  A package is a list of labelled fields in insertion
order; `setField` is Python dict assignment `pkg[label] = v`, `appendField`
is `pkg[label] += s` (which raises `KeyError` when `label` is `None` or not
yet present). -/

abbrev Pkg := List (String × String)

inductive ParseErr
  | keyError
  | valueError
  deriving DecidableEq, Repr

/-- Python `pkg[l] = v`: overwrite the existing binding or append a new one. -/
def setField : Pkg → String → String → Pkg
  | [], l, v => [(l, v)]
  | (l', v') :: rest, l, v =>
    if l' = l then (l, v) :: rest else (l', v') :: setField rest l v

/-- Python `pkg[l] += s` for a known label `l`: `none` models `KeyError`. -/
def appendFieldGo : Pkg → String → String → Option Pkg
  | [], _, _ => none
  | (l', v') :: rest, l, s =>
    if l' = l then some ((l', v' ++ s) :: rest)
    else
      match appendFieldGo rest l s with
      | some r => some ((l', v') :: r)
      | none => none

/-- Python `pkg[label] += s` where `label` may still be `None`. -/
def appendField : Pkg → Option String → String → Option Pkg
  | _, none, _ => none
  | pkg, some l, s => appendFieldGo pkg l s

/-- Python dict lookup `pkg[l]`: `none` models `KeyError`. -/
def getField : Pkg → String → Option String
  | [], _ => none
  | (l', v) :: rest, l => if l' = l then some v else getField rest l

/-- The loop body of `parse_packages`, carrying the current package `pkg`,
the current `label`, and the packages yielded so far (reversed). -/
def parsePackagesGo : List String → Pkg → Option String → List Pkg →
    Except ParseErr (List Pkg)
  | [], _, _, acc => .ok acc.reverse
  | line :: rest, pkg, label, acc =>
    if pyStrip line = "" then
      if pkg.isEmpty then parsePackagesGo rest [] none acc
      else parsePackagesGo rest [] none (pkg :: acc)
    else if line = " ." then
      match appendField pkg label "\n\n" with
      | some pkg' => parsePackagesGo rest pkg' label acc
      | none => .error .keyError
    else if pyStartsWith line " " then
      match appendField pkg label ("\n" ++ pyStrip (pyTail line)) with
      | some pkg' => parsePackagesGo rest pkg' label acc
      | none => .error .keyError
    else
      match pySplitSep ": " line with
      | some (l, d) => parsePackagesGo rest (setField pkg l (pyStrip d)) (some l) acc
      | none => .error .valueError

/-- `parse_packages(stream)`: `stream` is the list of lines exactly as Python
file iteration yields them (trailing newlines kept).  The result collects the
yielded packages; note the generator ends when the stream ends, without
yielding a pending unterminated package. -/
def parse_packages (stream : List String) : Except ParseErr (List Pkg) :=
  parsePackagesGo stream [] none []

/-! ### Pool path and ref namespace (apt.py lines 316-320)

`image_from_lockfile` derives, for each package record, the aptly pool
filename `sha256[:2]/sha256[2:4]/sha256[4:]_basename(filename)` and the
ostree ref namespace `"deb/pool/" + aptly_pool_filename` with `+` and `~`
each replaced by `_`. -/

/-- `aptly_pool_filename = "%s/%s/%s_%s" % (pkg['SHA256'][:2],
pkg['SHA256'][2:4], pkg['SHA256'][4:], os.path.basename(filename))`. -/
def aptly_pool_filename (sha256 filename : String) : String :=
  sha256.take 2 ++ "/" ++ ((sha256.drop 2).take 2) ++ "/" ++ sha256.drop 4
    ++ "_" ++ pyBasename filename

/-- `ref_base = "deb/pool/" +
aptly_pool_filename.replace('+', '_').replace('~', '_')`. -/
def ref_base (sha256 filename : String) : String :=
  "deb/pool/" ++
    pyReplace (pyReplace (aptly_pool_filename sha256 filename) "+" "_") "~" "_"

/-! ### Image branch naming (apt.py lines 338-362 and 268-275)

`image_from_lockfile` computes `digest = lockfile.replace('/', '_')` — a
mangling of the lockfile *path* — and publishes the unpacked image at branch
`deb/images/<digest>/unpacked`.  `build_image` derives the configured branch
by `unpacked.ref.replace("unpacked", "configured")`. -/

/-- `digest = lockfile.replace('/', '_')` (apt.py line 338).  Derived from
the lockfile path only; the lockfile's contents play no part. -/
def lockfileDigest (lockfile : String) : String :=
  pyReplace lockfile "/" "_"

/-- Branch of the unpacked image: `"deb/images/%s/unpacked" % digest`. -/
def unpacked_branch (lockfile : String) : String :=
  "deb/images/" ++ lockfileDigest lockfile ++ "/unpacked"

/-- Branch of the configured image (apt.py line 273):
`unpacked.ref.replace("unpacked", "configured")`. -/
def configured_branch (lockfile : String) : String :=
  pyReplace (unpacked_branch lockfile) "unpacked" "configured"

/-! ### `image_from_lockfile` (apt.py lines 299-362)

The observables the claims are about: the parsed package set and the branch
the unpacked image is published under.  The body opens the lockfile inside
`try: ... except IOError as e: if e.errno != errno.ENOENT: raise` — a
missing lockfile (`ENOENT`) yields an empty package set and the image target
is still produced; any other `IOError` propagates.  For each parsed package
the loop body (lines 316-330) URL-decodes `pkg['Filename']`, derives the
pool filename and ref namespace from `pkg['SHA256']`, and emits the
download/info rules for `pkg['Package']`; a record lacking one of these
fields raises `KeyError`, which — like a `ValueError` from the parser — is
not an `IOError` and propagates out of the function.  The embedding parses
the stream eagerly and then runs the per-package body over the records,
whereas the generator interleaves the two; on an input carrying both a
parse fault and an earlier field fault the surfaced exception can therefore
differ, but the embedding raises exactly when the code raises and agrees
with it on every single-fault or fault-free input.  The result of opening
the lockfile is passed in as `Except Nat (List String)` (errno on failure,
the lines on success). -/

structure ImageTarget where
  packages : List Pkg
  branch : String
  deriving DecidableEq, Repr

inductive BuildError
  | io (errno : Nat)
  | parse (e : ParseErr)
  | key
  deriving DecidableEq, Repr

/-- `errno.ENOENT`. -/
def ENOENT : Nat := 2

/-- The per-package body of the lockfile loop (apt.py lines 316-327):
`filename = urllib.unquote(pkg['Filename'])`, then the pool filename and
ref namespace derived from `pkg['SHA256']` and `filename`, with
`pkg['Package']` read for the `make_dpkg_info` rule; any missing field is a
`KeyError`.  Returns the derived `(aptly_pool_filename, ref_base)` pair, in
the source's access order. -/
def package_refs (pkg : Pkg) : Except BuildError (String × String) :=
  match getField pkg "Filename" with
  | none => .error .key
  | some fn =>
    match getField pkg "SHA256" with
    | none => .error .key
    | some sha =>
      match getField pkg "Package" with
      | none => .error .key
      | some _ =>
        let filename := pyUnquote fn
        .ok (aptly_pool_filename sha filename, ref_base sha filename)

/-- The `for pkg in parse_packages(f)` loop: run the per-package body on
each record in order, collecting the derived refs and stopping at the first
raised `KeyError`. -/
def build_package_rules : List Pkg → Except BuildError (List (String × String))
  | [] => .ok []
  | pkg :: rest =>
    match package_refs pkg with
    | .error e => .error e
    | .ok refs =>
      match build_package_rules rest with
      | .error e => .error e
      | .ok others => .ok (refs :: others)

def image_from_lockfile (openResult : Except Nat (List String))
    (lockfile : String) : Except BuildError ImageTarget :=
  match openResult with
  | .ok lines =>
    match parse_packages lines with
    | .ok pkgs =>
      match build_package_rules pkgs with
      | .ok _ => .ok ⟨pkgs, unpacked_branch lockfile⟩
      | .error e => .error e
    | .error e => .error (.parse e)
  | .error e =>
    if e = ENOENT then .ok ⟨[], unpacked_branch lockfile⟩
    else .error (.io e)

/-! ### `generate_lockfile` (apt.py lines 277-297)

Defaults are applied for absent arguments, the package list is sorted, and
the ninja build statement for the `update_lockfile` rule is emitted with
`packages = "".join("| " + x for x in sorted(packages))`.  Python's
`sorted` is embedded as insertion sort with `≤` on strings; any stable sort
under this total order produces the same list. -/

structure LockfileStmt where
  packagesVar : String
  architecture : String
  distribution : String
  archiveUrl : String
  lockfile : String
  deriving DecidableEq, Repr

def generate_lockfile (lockfile : String) (packages : Option (List String))
    (architecture distribution archiveUrl : Option String) : LockfileStmt :=
  let packages := packages.getD []
  let architecture := architecture.getD "amd64"
  let distribution := distribution.getD "xenial"
  let archiveUrl := archiveUrl.getD "http://archive.ubuntu.com/ubuntu"
  let sortedPkgs := List.insertionSort pyStrLe packages
  { packagesVar := String.join (sortedPkgs.map (fun x => "| " ++ x)),
    architecture := architecture,
    distribution := distribution,
    archiveUrl := archiveUrl,
    lockfile := lockfile }

/-! ### `download_deb` (apt.py lines 84-130)

The shell body: for each mirror line, it calls `download` on (1) the local
mirror cache `file://$PWD/$builddir/apt/mirror/$filename`, (2)
`$mirror/$filename`, (3) `$mirror/$aptly_pool_filename`, breaking on the
first call that reports success.  Each `download url` overwrites
`$tmpdir/deb` when `curl` succeeds (and leaves the previous file in place
when it fails), then reports success iff the SHA-256 of the *current*
`$tmpdir/deb` equals `$sha256sum`.  After the loop the script fails only
when `$tmpdir/deb` does not exist — i.e. when every `curl` failed outright —
and otherwise proceeds to unpack and commit whatever bytes the file holds.

The embedding: `avail url` is the bytes `curl` would fetch from `url`
(`none` = download failure), `hash` stands for SHA-256, and the temp file is
an `Option Bytes` threaded through the attempts. -/

abbrev Bytes := List Nat

/-- URL of the local mirror cache for a record's `Filename`. -/
def local_cache_url (builddir filename : String) : String :=
  "file://$PWD/" ++ builddir ++ "/apt/mirror/" ++ filename

/-- The three download attempts made for one mirror, in order. -/
def mirror_urls (builddir filename aptlyPool mirror : String) : List String :=
  [local_cache_url builddir filename,
   mirror ++ "/" ++ filename,
   mirror ++ "/" ++ aptlyPool]

/-- One `download url` call: the new temp-file content and whether the
function returned success (current temp file exists and its hash matches). -/
def downloadAttempt (hash : Bytes → String) (sha256sum : String)
    (avail : String → Option Bytes) (tmp : Option Bytes) (url : String) :
    Option Bytes × Bool :=
  let tmp' := match avail url with
    | some b => some b
    | none => tmp
  (tmp', match tmp' with
    | some b => hash b == sha256sum
    | none => false)

/-- The `while read mirror; do ... && break; done` loop over the flattened
attempt list, returning the final temp-file content. -/
def downloadLoop (hash : Bytes → String) (sha256sum : String)
    (avail : String → Option Bytes) : List String → Option Bytes → Option Bytes
  | [], tmp => tmp
  | url :: rest, tmp =>
    let r := downloadAttempt hash sha256sum avail tmp url
    if r.2 then r.1 else downloadLoop hash sha256sum avail rest r.1

/-- The full `download_deb` body up to the unpack step: the bytes that get
unpacked and committed, or the `"Failed to download"` error when no attempt
ever produced a file. -/
def download_deb (hash : Bytes → String) (avail : String → Option Bytes)
    (builddir : String) (mirrors : List String)
    (filename aptlyPool sha256sum : String) : Except String Bytes :=
  let urls := (mirrors.map (mirror_urls builddir filename aptlyPool)).flatten
  match downloadLoop hash sha256sum avail urls none with
  | some b => .ok b
  | none => .error ("Failed to download " ++ filename)

/-! ### Overwrite-if-changed (apt.py lines 132-179 and 22-37)

`make_dpkg_info` defines `overwrite_if_changed () { if ! cmp $1 $2; then
mv $1 $2; fi; }` and applies it to the freshly generated `status` and
`available` records; `update_lockfile` writes the regenerated lockfile with
`if cmp $lockfile~ $lockfile; then rm $lockfile~; else mv $lockfile~
$lockfile; fi`.  A destination file is `Option (Bytes × Nat)`: its content
and a staleness token (mtime); `cmp` succeeds iff the destination exists
with exactly the new content, in which case the destination — content and
mtime alike — is left untouched. -/

def overwrite_if_changed (newContent : Bytes) (dest : Option (Bytes × Nat))
    (now : Nat) : Option (Bytes × Nat) :=
  match dest with
  | some (c, m) => if c = newContent then some (c, m) else some (newContent, now)
  | none => some (newContent, now)

/-- The lockfile write of the `update_lockfile` rule: same compare-then-move
discipline as `overwrite_if_changed`, spelled inline in the rule body. -/
def update_lockfile_write (newContent : Bytes) (dest : Option (Bytes × Nat))
    (now : Nat) : Option (Bytes × Nat) :=
  match dest with
  | some (c, m) => if c = newContent then some (c, m) else some (newContent, now)
  | none => some (newContent, now)

/-! ### `ostree_combine` — modelled from the spec

Modelled from the spec: `ostree_combine` is imported from
`apt2ostree/ostree.py`, which is not under `src/`; only its caller
`image_from_lockfile` is.  Spec §4.4 (ImageAssembler) defines the merge
contract: the union of the input trees, independent of input order for
disjoint path sets, and an irrecoverable conflict error when two inputs
provide the same path.  A tree is a finite association of paths to file
contents. -/

abbrev Tree := List (String × String)

inductive MergeConflict
  | conflict
  deriving DecidableEq, Repr

def treePaths (t : Tree) : List String := t.map Prod.fst

def treeLookup (t : Tree) (p : String) : Option String :=
  (t.find? (fun e => e.1 == p)).map Prod.snd

/-- Modelled from the spec: combine two trees, failing on any shared path,
otherwise producing their union. -/
def ostree_combine (t1 t2 : Tree) : Except MergeConflict Tree :=
  if t1.any (fun e => t2.any (fun e2 => e2.1 == e.1)) then .error .conflict
  else .ok (t1 ++ t2)

/-- The character substitution the ref namespace derivation applies:
`+` and `~` become `_`, all other characters are kept. -/
def poolCharSubst (c : Char) : Char :=
  if c = '+' ∨ c = '~' then '_' else c

/-! ### Helper lemmas -/

lemma pyReplaceGo_singleton (a b : Char) (n : Nat) :
    ∀ cs : List Char, cs.length ≤ n →
      pyReplaceGo [a] [b] cs n = cs.map (fun c => if c = a then b else c) := by
  induction n with
  | zero =>
    intro cs h
    have : cs = [] := List.length_eq_zero.mp (Nat.le_zero.mp h)
    subst this
    rfl
  | succ n ih =>
    intro cs h
    cases cs with
    | nil => rfl
    | cons c cs =>
      have hcs : cs.length ≤ n := by simpa using h
      have hpre : (([a] : List Char).isPrefixOf (c :: cs)) = (a == c) := by
        simp [List.isPrefixOf]
      by_cases hc : c = a
      · subst hc
        rw [pyReplaceGo, if_pos ⟨by simp, by rw [hpre]; exact beq_self_eq_true c⟩]
        have hdrop : (c :: cs).drop ([c] : List Char).length = cs := rfl
        rw [hdrop, ih cs hcs]
        simp
      · have hneg : ¬((([a] : List Char) ≠ []) ∧
            (([a] : List Char).isPrefixOf (c :: cs)) = true) := by
          rintro ⟨-, hB⟩
          rw [hpre] at hB
          exact hc (beq_iff_eq.mp hB).symm
        rw [pyReplaceGo, if_neg hneg, ih cs hcs]
        simp [hc]

lemma pyReplace_singleton (s old new : String) (a b : Char)
    (ho : old.data = [a]) (hn : new.data = [b]) :
    pyReplace s old new = ⟨s.data.map (fun c => if c = a then b else c)⟩ := by
  unfold pyReplace
  rw [ho, hn, pyReplaceGo_singleton a b s.data.length s.data le_rfl]

lemma treeLookup_append (t1 t2 : Tree) (p : String) :
    treeLookup (t1 ++ t2) p = (treeLookup t1 p).or (treeLookup t2 p) := by
  unfold treeLookup
  rw [List.find?_append]
  cases List.find? (fun e => e.1 == p) t1 <;> simp [Option.or]

lemma ostree_combine_any_iff (t1 t2 : Tree) :
    (t1.any fun e => t2.any fun e2 => e2.1 == e.1) = true ↔
      ∃ p, p ∈ treePaths t1 ∧ p ∈ treePaths t2 := by
  simp only [List.any_eq_true, beq_iff_eq, treePaths, List.mem_map]
  constructor
  · rintro ⟨x, hx, y, hy, hxy⟩
    exact ⟨x.1, ⟨x, hx, rfl⟩, ⟨y, hy, hxy⟩⟩
  · rintro ⟨p, ⟨x, hx, hxp⟩, ⟨y, hy, hyp⟩⟩
    exact ⟨x, hx, y, hy, by rw [hyp, hxp]⟩

/-! ### Claim theorems -/

set_option maxHeartbeats 1600000 in
/-- C2: for a package record with SHA-256 digest `sha256` and a (URL-decoded)
`Filename`, the derived pool path is
`sha256[0:2]/sha256[2:4]/sha256[4:]_basename`, and the store namespace
`ref_base` is `deb/pool/` followed by the pool path with every `+` and every
`~` replaced by `_`; the pool path itself keeps the original characters. -/
theorem pool_path_and_ref_base (sha256 filename : String) :
    aptly_pool_filename sha256 filename
      = sha256.take 2 ++ "/" ++ (sha256.drop 2).take 2 ++ "/" ++ sha256.drop 4
          ++ "_" ++ pyBasename filename
  ∧ ref_base sha256 filename
      = "deb/pool/" ++ ⟨(aptly_pool_filename sha256 filename).data.map poolCharSubst⟩ := by
  constructor
  · rfl
  · unfold ref_base
    rw [pyReplace_singleton _ "+" "_" '+' '_' rfl rfl,
        pyReplace_singleton _ "~" "_" '~' '_' rfl rfl]
    have hmap : ∀ l : List Char,
        List.map (fun c => if c = '~' then '_' else c)
            (List.map (fun c => if c = '+' then '_' else c) l)
          = List.map poolCharSubst l := by
      intro l
      rw [List.map_map]
      apply List.map_congr_left
      intro c _
      by_cases h1 : c = '+' <;> by_cases h2 : c = '~' <;>
        simp [poolCharSubst, Function.comp, h1, h2]
    rw [hmap]

/-- C6: when opening the lockfile fails with `ENOENT`, `image_from_lockfile`
does not raise: it proceeds with an empty package set and still produces the
image target; any other I/O error while opening is propagated. -/
theorem image_from_lockfile_missing (lockfile : String) (e : Nat) :
    (e = ENOENT →
      image_from_lockfile (.error e) lockfile
        = .ok ⟨[], unpacked_branch lockfile⟩)
  ∧ (e ≠ ENOENT →
      image_from_lockfile (.error e) lockfile = .error (.io e)) := by
  constructor <;> intro h <;> simp [image_from_lockfile, h]

theorem image_from_lockfile_missing_witness :
    image_from_lockfile (.error 2) "mylock" = .ok ⟨[], unpacked_branch "mylock"⟩
  ∧ image_from_lockfile (.error 13) "mylock" = .error (.io 13) :=
  ⟨(image_from_lockfile_missing "mylock" 2).1 rfl,
   (image_from_lockfile_missing "mylock" 13).2 (by decide)⟩

/-- C8: the status/available records and the regenerated lockfile are written
only when the new content differs byte-for-byte from the existing file; when
identical, the existing file — content and staleness metadata (mtime) — is
left unchanged. -/
theorem overwrite_if_changed_frame (newContent : Bytes)
    (dest : Option (Bytes × Nat)) (now : Nat) :
    ((∃ m, dest = some (newContent, m)) →
        overwrite_if_changed newContent dest now = dest
      ∧ update_lockfile_write newContent dest now = dest)
  ∧ ((∀ m, dest ≠ some (newContent, m)) →
        overwrite_if_changed newContent dest now = some (newContent, now)
      ∧ update_lockfile_write newContent dest now = some (newContent, now)) := by
  constructor
  · rintro ⟨m, rfl⟩
    simp [overwrite_if_changed, update_lockfile_write]
  · intro h
    match dest with
    | none => simp [overwrite_if_changed, update_lockfile_write]
    | some (c, m) =>
      have hc : c ≠ newContent := fun hEq => h m (by rw [hEq])
      simp [overwrite_if_changed, update_lockfile_write, hc]

theorem overwrite_if_changed_frame_witness :
    (overwrite_if_changed [1, 2] (some ([1, 2], 5)) 9 = some ([1, 2], 5)
      ∧ update_lockfile_write [1, 2] (some ([1, 2], 5)) 9 = some ([1, 2], 5))
  ∧ (overwrite_if_changed [3] (some ([1, 2], 5)) 9 = some ([3], 9)
      ∧ update_lockfile_write [3] (some ([1, 2], 5)) 9 = some ([3], 9)) :=
  ⟨(overwrite_if_changed_frame [1, 2] (some ([1, 2], 5)) 9).1 ⟨5, rfl⟩,
   (overwrite_if_changed_frame [3] (some ([1, 2], 5)) 9).2 (by simp)⟩

/-- C9: `generate_lockfile` sorts the requested package names before building
the package-filter variable, so two permutations of the same package list
produce identical build statements. -/
theorem generate_lockfile_perm_invariant (lockfile : String)
    (l1 l2 : List String)
    (architecture distribution archiveUrl : Option String)
    (hp : l1.Perm l2) :
    generate_lockfile lockfile (some l1) architecture distribution archiveUrl
      = generate_lockfile lockfile (some l2) architecture distribution archiveUrl := by
  have hsort : List.insertionSort pyStrLe l1 = List.insertionSort pyStrLe l2 :=
    List.eq_of_perm_of_sorted
      ((List.perm_insertionSort pyStrLe l1).trans
        (hp.trans (List.perm_insertionSort pyStrLe l2).symm))
      (List.sorted_insertionSort pyStrLe l1)
      (List.sorted_insertionSort pyStrLe l2)
  simp [generate_lockfile, hsort]

theorem generate_lockfile_perm_invariant_witness :
    generate_lockfile "lf" (some ["b", "a"]) none none none
      = generate_lockfile "lf" (some ["a", "b"]) none none none :=
  generate_lockfile_perm_invariant "lf" ["b", "a"] ["a", "b"] none none none
    (by decide)

/-- C1: combining two trees fails with a conflict error whenever the trees
share a path; for disjoint path sets the combination succeeds, the result is
the union of the inputs, and — as a lookup function — it is independent of
the input order.  (`ostree_combine` is modelled from spec §4.4, since
`apt2ostree/ostree.py` is not under src/.) -/
theorem ostree_combine_contract (t1 t2 : Tree) :
    ((∃ p, p ∈ treePaths t1 ∧ p ∈ treePaths t2) →
      ostree_combine t1 t2 = .error .conflict)
  ∧ ((∀ p, p ∈ treePaths t1 → p ∉ treePaths t2) →
      ostree_combine t1 t2 = .ok (t1 ++ t2)
      ∧ ostree_combine t2 t1 = .ok (t2 ++ t1)
      ∧ (∀ p, treeLookup (t1 ++ t2) p = (treeLookup t1 p).or (treeLookup t2 p))
      ∧ (∀ p, treeLookup (t2 ++ t1) p = treeLookup (t1 ++ t2) p)) := by
  constructor
  · intro h
    unfold ostree_combine
    rw [if_pos ((ostree_combine_any_iff t1 t2).mpr h)]
  · intro h
    have h1 : ¬((t1.any fun e => t2.any fun e2 => e2.1 == e.1) = true) := by
      intro hc
      obtain ⟨p, hp1, hp2⟩ := (ostree_combine_any_iff t1 t2).mp hc
      exact h p hp1 hp2
    have h2 : ¬((t2.any fun e => t1.any fun e2 => e2.1 == e.1) = true) := by
      intro hc
      obtain ⟨p, hp2, hp1⟩ := (ostree_combine_any_iff t2 t1).mp hc
      exact h p hp1 hp2
    refine ⟨by unfold ostree_combine; rw [if_neg h1],
            by unfold ostree_combine; rw [if_neg h2],
            fun p => treeLookup_append t1 t2 p, ?_⟩
    intro p
    rw [treeLookup_append, treeLookup_append]
    cases hf : treeLookup t1 p with
    | none => cases treeLookup t2 p <;> rfl
    | some v =>
      have hfind : ∃ e, List.find? (fun e => e.1 == p) t1 = some e ∧ e.2 = v := by
        unfold treeLookup at hf
        cases hq : List.find? (fun e => e.1 == p) t1 with
        | none => rw [hq] at hf; simp at hf
        | some e => rw [hq] at hf; simp at hf; exact ⟨e, rfl, hf⟩
      obtain ⟨e, hq, hv⟩ := hfind
      have hmem : p ∈ treePaths t1 := by
        have he : e ∈ t1 := List.mem_of_find?_eq_some hq
        have hep : e.1 = p := by
          have := List.find?_some hq
          exact beq_iff_eq.mp this
        exact hep ▸ List.mem_map_of_mem Prod.fst he
      have hnone : treeLookup t2 p = none := by
        unfold treeLookup
        rw [List.find?_eq_none.mpr]
        · rfl
        · intro x hx
          simp only [beq_iff_eq]
          intro hxp
          exact h p hmem (hxp ▸ List.mem_map_of_mem Prod.fst hx)
      rw [hnone]
      rfl

theorem ostree_combine_contract_witness :
    ostree_combine [("a", "x")] [("a", "y")] = .error .conflict
  ∧ ostree_combine [("a", "x")] [("b", "y")] = .ok [("a", "x"), ("b", "y")] :=
  ⟨(ostree_combine_contract [("a", "x")] [("a", "y")]).1
      ⟨"a", by decide, by decide⟩,
   ((ostree_combine_contract [("a", "x")] [("b", "y")]).2
      (by intro p hp; simp [treePaths] at hp ⊢; subst hp; decide)).1⟩

/-- C10: a paragraph whose first non-blank line is malformed — it begins
with a space (a continuation with no preceding field) or contains no `": "`
separator — makes `parse_packages` raise (`KeyError` / `ValueError`) rather
than yield a record. -/
theorem parse_packages_malformed_head (pre : List String) (bad : String)
    (rest : List String) (hpre : ∀ l ∈ pre, pyStrip l = "")
    (hbad : pyStrip bad ≠ "")
    (hshape : pyStartsWith bad " " = true ∨ pySplitSep ": " bad = none) :
    ∃ e, parse_packages (pre ++ bad :: rest) = .error e := by
  unfold parse_packages
  revert hpre
  induction pre with
  | nil =>
    intro _
    rw [List.nil_append]
    unfold parsePackagesGo
    rw [if_neg hbad]
    by_cases hdot : bad = " ."
    · rw [if_pos hdot]
      exact ⟨.keyError, rfl⟩
    · rw [if_neg hdot]
      by_cases hsp : pyStartsWith bad " " = true
      · rw [if_pos hsp]
        exact ⟨.keyError, rfl⟩
      · rw [if_neg hsp]
        cases hshape with
        | inl h => exact absurd h hsp
        | inr h => rw [h]; exact ⟨.valueError, rfl⟩
  | cons l pre ih =>
    intro hpre
    rw [List.cons_append]
    unfold parsePackagesGo
    rw [if_pos (hpre l (List.mem_cons_self l pre))]
    simp only [List.isEmpty_nil, if_pos]
    exact ih (fun x hx => hpre x (List.mem_cons_of_mem l hx))

theorem parse_packages_malformed_head_witness :
    ∃ e, parse_packages [" x\n"] = .error e :=
  parse_packages_malformed_head [] " x\n" []
    (by simp) (by decide) (Or.inl (by decide))

lemma parsePackagesGo_no_blank :
    ∀ (ls : List String), (∀ l ∈ ls, pyStrip l ≠ "") →
    ∀ (pkg : Pkg) (label : Option String) (acc : List Pkg) (r : List Pkg),
      parsePackagesGo ls pkg label acc = .ok r → r = acc.reverse := by
  intro ls
  induction ls with
  | nil =>
    intro _ pkg label acc r hr
    unfold parsePackagesGo at hr
    exact (Except.ok.inj hr).symm
  | cons l ls ih =>
    intro h pkg label acc r hr
    have hl : pyStrip l ≠ "" := h l (List.mem_cons_self l ls)
    have hls : ∀ x ∈ ls, pyStrip x ≠ "" := fun x hx => h x (List.mem_cons_of_mem l hx)
    unfold parsePackagesGo at hr
    rw [if_neg hl] at hr
    by_cases hdot : l = " ."
    · rw [if_pos hdot] at hr
      cases hap : appendField pkg label "\n\n" with
      | none => rw [hap] at hr; exact absurd hr (by simp)
      | some pkg' => rw [hap] at hr; exact ih hls pkg' label acc r hr
    · rw [if_neg hdot] at hr
      by_cases hsp : pyStartsWith l " " = true
      · rw [if_pos hsp] at hr
        cases hap : appendField pkg label ("\n" ++ pyStrip (pyTail l)) with
        | none => rw [hap] at hr; exact absurd hr (by simp)
        | some pkg' => rw [hap] at hr; exact ih hls pkg' label acc r hr
      · rw [if_neg hsp] at hr
        cases hsplit : pySplitSep ": " l with
        | none => rw [hsplit] at hr; exact absurd hr (by simp)
        | some ld =>
          rw [hsplit] at hr
          exact ih hls (setField pkg ld.1 (pyStrip ld.2)) (some ld.1) acc r hr

/-- C7 (amended): `parse_packages` yields records only when it meets a blank
line — an input with no blank line yields nothing, so a trailing paragraph
not terminated by a blank line is always discarded, even when non-empty. -/
theorem parse_packages_yields_only_at_blank (ls : List String)
    (h : ∀ l ∈ ls, pyStrip l ≠ "") (r : List Pkg)
    (hr : parse_packages ls = .ok r) : r = [] :=
  parsePackagesGo_no_blank ls h [] none [] r hr

theorem parse_packages_yields_only_at_blank_witness :
    (∀ l ∈ ["A: b\n"], pyStrip l ≠ "")
  ∧ parse_packages ["A: b\n"] = .ok []
  ∧ ([] : List Pkg) = [] :=
  ⟨by decide, by decide,
   parse_packages_yields_only_at_blank ["A: b\n"] (by decide) [] (by decide)⟩

/-- C7 (counterexample to the claim as stated): the single non-empty
paragraph `A: b` is discarded when the stream ends without a blank line,
although the same paragraph parses to a record once terminated. -/
theorem parse_packages_trailing_discarded :
    parse_packages ["A: b\n"] = .ok []
  ∧ parse_packages ["A: b\n", "\n"] = .ok [[("A", "b")]] :=
  ⟨by decide, by decide⟩

/-- C4: evaluation showing the blank-line-marker divergence: in a real file
stream the marker line arrives as `" .\n"`, which is not equal to `" ."`
(the dead comparison in the code), so it is handled as an ordinary
continuation and decodes to a literal `.` line — `"a\n.\nb"` — instead of
the embedded blank line `"a\n\nb"` that the claim (and the Packages file
format) prescribes. -/
theorem parse_packages_marker_is_literal_dot :
    parse_packages ["Description: a\n", " .\n", " b\n", "\n"]
      = .ok [[("Description", "a\n.\nb")]]
  ∧ ("a\n.\nb" : String) ≠ "a\n\nb" :=
  ⟨by decide, by decide⟩

/-- C3: evaluation showing the verification divergence: a source serves
bytes `[7]` whose hash is not the declared digest, every other source fails
outright; the post-loop existence check still lets the script proceed, so
`download_deb` returns the unverified bytes instead of failing. -/
theorem download_deb_accepts_unverified :
    download_deb (fun b => if b = [1] then "goodsha" else "badsha")
        (fun u => if u = "http://A/pool/x.deb" then some ([7] : Bytes) else none)
        "_build" ["http://A"] "pool/x.deb" "aa/bb/cc_x.deb" "goodsha"
      = .ok [7]
  ∧ (fun b : Bytes => if b = [1] then "goodsha" else "badsha") [7] ≠ "goodsha" :=
  ⟨by decide, by decide⟩

/-- C5 (counterexample to the claim as stated): two lockfiles with identical
contents — hence identical package sets (here one complete record with
`Package`, `Filename` and `SHA256` fields) — but different paths are
published under different image keys, because the key is derived from the
lockfile path, not from a digest of the package set. -/
theorem image_key_ignores_package_set :
    image_from_lockfile
        (.ok ["Package: p\n", "Filename: pool/main/p/p_1.deb\n",
              "SHA256: 0011223344\n", "\n"]) "a.lock"
      = .ok ⟨[[("Package", "p"), ("Filename", "pool/main/p/p_1.deb"),
              ("SHA256", "0011223344")]], "deb/images/a.lock/unpacked"⟩
  ∧ image_from_lockfile
        (.ok ["Package: p\n", "Filename: pool/main/p/p_1.deb\n",
              "SHA256: 0011223344\n", "\n"]) "b.lock"
      = .ok ⟨[[("Package", "p"), ("Filename", "pool/main/p/p_1.deb"),
              ("SHA256", "0011223344")]], "deb/images/b.lock/unpacked"⟩
  ∧ ("deb/images/a.lock/unpacked" : String) ≠ "deb/images/b.lock/unpacked" :=
  ⟨by decide, by decide, by decide⟩

/-- C5 (amended): the unpacked and configured image refs are published under
`deb/images/<key>/unpacked` and its `configured` replacement, where `<key>`
is the lockfile path with each `/` replaced by `_` (so the key never
contains `/`); the key depends only on the lockfile path — whatever the
lockfile's contents, a successful `image_from_lockfile` publishes under the
path-derived branch. -/
theorem image_branches_from_lockfile_path (lockfile : String) :
    unpacked_branch lockfile
      = "deb/images/" ++ lockfileDigest lockfile ++ "/unpacked"
  ∧ configured_branch lockfile
      = pyReplace (unpacked_branch lockfile) "unpacked" "configured"
  ∧ (∀ c ∈ (lockfileDigest lockfile).data, c ≠ '/')
  ∧ (∀ (openResult : Except Nat (List String)) (t : ImageTarget),
      image_from_lockfile openResult lockfile = .ok t →
      t.branch = unpacked_branch lockfile) := by
  refine ⟨rfl, rfl, ?_, ?_⟩
  · intro c hc
    have hdata : (lockfileDigest lockfile).data
        = lockfile.data.map (fun c => if c = '/' then '_' else c) := by
      unfold lockfileDigest
      rw [pyReplace_singleton lockfile "/" "_" '/' '_' rfl rfl]
    rw [hdata] at hc
    obtain ⟨c', _, rfl⟩ := List.mem_map.mp hc
    by_cases h : c' = '/'
    · simp only [h, if_pos]
      decide
    · simp only [if_neg h]
      exact h
  · intro o t ht
    cases o with
    | ok lines =>
      cases hp : parse_packages lines with
      | ok pkgs =>
        cases hb : build_package_rules pkgs with
        | ok refs =>
          simp only [image_from_lockfile, hp, hb] at ht
          rw [← Except.ok.inj ht]
        | error e =>
          simp [image_from_lockfile, hp, hb] at ht
      | error e =>
        simp [image_from_lockfile, hp] at ht
    | error e =>
      by_cases he : e = ENOENT
      · simp only [image_from_lockfile, he, if_pos] at ht
        rw [← Except.ok.inj ht]
      · simp [image_from_lockfile, he] at ht

theorem image_branches_from_lockfile_path_witness :
    ('a' : Char) ≠ '/'
  ∧ ImageTarget.branch ⟨[], unpacked_branch "a/b.lock"⟩ = unpacked_branch "a/b.lock" :=
  ⟨(image_branches_from_lockfile_path "a/b.lock").2.2.1 'a' (by decide),
   (image_branches_from_lockfile_path "a/b.lock").2.2.2 (.error 2)
     ⟨[], unpacked_branch "a/b.lock"⟩ (by decide)⟩

end Apt2Ostree
